import Mathlib

/-!
# The entrypoint binary (`src/entrypoint/main.go`)

A shallow embedding of the entrypoint binary: the process environment is an
explicit association list, the operating system is a record of oracles that
decide whether each system call succeeds, and a run of `main` is the list of
observable events it produces together with the way the process ends.

Go strings are modelled by Lean strings, that is by sequences of characters
where Go has sequences of bytes: the separators the program splits at are
ASCII, so on text that is valid UTF-8 both give the same pieces. The library
functions the program calls (`strings.Split`, `strings.Fields`,
`strconv.Atoi`, `os.Getenv`, `os.Unsetenv`, `os.Environ`, `exec.LookPath`) are
modelled from their documented behaviour, with `int` taken to be 64 bits wide.
-/

namespace Entrypoint

/-! ## Library layer: `strings` -/

/-- Splitting a character sequence at every occurrence of a one-character
separator. The result is never empty: a sequence without the separator gives
one piece, the sequence itself. -/
def splitChars (sep : Char) : List Char → List (List Char)
  | [] => [[]]
  | c :: cs =>
    if c = sep then [] :: splitChars sep cs
    else
      match splitChars sep cs with
      | [] => [[c]]
      | p :: ps => (c :: p) :: ps

/-- The function `strings.Split(s, sep)` for a separator of one character, the
only way the program calls it (with "\n" and with ":"). -/
def Split (s : String) (sep : Char) : List String :=
  (splitChars sep s.data).map String.mk

/-- White space in the sense of `unicode.IsSpace`. -/
def isSpace (c : Char) : Bool :=
  c = '\t' || c = '\n' || c.toNat = 0x0B || c.toNat = 0x0C || c = '\r' || c = ' ' ||
  c.toNat = 0x85 || c.toNat = 0xA0 || c.toNat = 0x1680 ||
  (0x2000 ≤ c.toNat && c.toNat ≤ 0x200A) ||
  c.toNat = 0x2028 || c.toNat = 0x2029 || c.toNat = 0x202F || c.toNat = 0x205F ||
  c.toNat = 0x3000

/-- The scan of `strings.Fields`: `cur` is the field being read, reversed. -/
def fieldsChars : List Char → List Char → List (List Char)
  | [], cur => if cur = [] then [] else [cur.reverse]
  | c :: cs, cur =>
    if isSpace c then
      if cur = [] then fieldsChars cs [] else cur.reverse :: fieldsChars cs []
    else fieldsChars cs (c :: cur)

/-- The function `strings.Fields(s)`: the maximal runs of characters of `s` that are not
white space, in order; empty when `s` has only white space. -/
def Fields (s : String) : List String :=
  (fieldsChars s.data []).map String.mk

/-! ## Library layer: `strconv` -/

/-- The two errors of `strconv`: `ErrSyntax` (here `invalid`) and `ErrRange`
(here `outOfRange`). -/
inductive NumError where
  | invalid
  | outOfRange
  deriving DecidableEq, Repr

/-- The width of `int` in bits. -/
def intSize : Nat := 64

/-- The largest `uint64`. -/
def maxUint64 : Nat := 2 ^ 64 - 1

/-- The digit loop of `strconv.ParseUint(s, 10, 64)`: `n` is the value read so
far. A character that is not a decimal digit is a syntax error; a value above
`maxUint64` is a range error, reported where the overflow happens. -/
def parseUintLoop : List Char → Nat → Except NumError Nat
  | [], n => .ok n
  | c :: cs, n =>
    if '0' ≤ c ∧ c ≤ '9' then
      let d := c.toNat - '0'.toNat
      if n ≥ maxUint64 / 10 + 1 then .error .outOfRange
      else
        let n1 := n * 10 + d
        if n1 > maxUint64 then .error .outOfRange
        else parseUintLoop cs n1
    else .error .invalid

/-- The function `strconv.ParseUint(s, 10, 64)`. -/
def ParseUint (s : List Char) : Except NumError Nat :=
  match s with
  | [] => .error .invalid
  | _ => parseUintLoop s 0

/-- The function `strconv.ParseInt(s, 10, 0)` on the characters of `s`: an optional
sign, then `ParseUint`, then the range check against `2 ^ (intSize - 1)`. -/
def ParseInt (s : List Char) : Except NumError Int :=
  match s with
  | [] => .error .invalid
  | c :: cs =>
    let neg := decide (c = '-')
    let body := if c = '+' ∨ c = '-' then cs else c :: cs
    match ParseUint body with
    | .error e => .error e
    | .ok un =>
      let cutoff := 2 ^ (intSize - 1)
      if ¬ neg ∧ un ≥ cutoff then .error .outOfRange
      else if neg ∧ un > cutoff then .error .outOfRange
      else .ok (if neg then - (un : Int) else (un : Int))

/-- The function `strconv.Atoi(s)`, which is `ParseInt(s, 10, 0)` converted to `int`. As in Go
the result is a pair of a value and an error; the value is 0 when there is an
error. -/
def Atoi (s : String) : Int × Option NumError :=
  match ParseInt s.data with
  | .ok n => (n, none)
  | .error e => (0, some e)

/-! ## `lookupUser` -/

/-- The errors `lookupUser` builds with `fmt.Errorf`:
"reading /etc/passwd: ...", "parsing uid: ...", "parsing gid: ..." and
"user ... not found in /etc/passwd". -/
inductive LookupError where
  | reading
  | parsingUid (e : NumError)
  | parsingGid (e : NumError)
  | notFound (username : String)
  deriving DecidableEq, Repr

/-- The loop of `lookupUser` over the lines of the account database
(main.go lines 144 to 162). -/
def lookupUserLines (username : String) : List String → Int × Int × Option LookupError
  | [] => (0, 0, some (.notFound username))
  | line :: rest =>
    let fields := Split line ':'
    if fields.length < 4 then lookupUserLines username rest
    else if fields.getD 0 "" = username then
      match Atoi (fields.getD 2 "") with
      | (_, some e) => (0, 0, some (.parsingUid e))
      | (uid, none) =>
        match Atoi (fields.getD 3 "") with
        | (_, some e) => (0, 0, some (.parsingGid e))
        | (gid, none) => (uid, gid, none)
    else lookupUserLines username rest

/-- The function `lookupUser` (main.go lines 138 to 163) as a function of what
`os.ReadFile("/etc/passwd")` gives: `none` when the file cannot be read,
`some text` otherwise. The result is Go's triple `(uid, gid, err)`. -/
def lookupUser (passwd : Option String) (username : String) : Int × Int × Option LookupError :=
  match passwd with
  | none => (0, 0, some .reading)
  | some data => lookupUserLines username (Split data '\n')

/-! ## Library layer: the process environment -/

/-- The process environment: each pair `(name, value)` is the entry
`name=value`. -/
abbrev Env := List (String × String)

/-- The function `os.LookupEnv`: the value bound to `key`, if any. -/
def LookupEnv : Env → String → Option String
  | [], _ => none
  | (k, v) :: rest, key => if k = key then some v else LookupEnv rest key

/-- The function `os.Getenv`: the value bound to `key`, the empty string when there is
none. -/
def Getenv (env : Env) (key : String) : String :=
  (LookupEnv env key).getD ""

/-- The function `os.Unsetenv`: every entry for `key` is removed. -/
def Unsetenv (env : Env) (key : String) : Env :=
  env.filter (fun kv => decide (kv.1 ≠ key))

/-- The function `os.Environ`: the enumeration of the environment. -/
def Environ (env : Env) : Env := env

/-! ## The program's constants (main.go lines 15 to 29) -/

def envSessionToken : String := "SESSION_TOKEN"

def envControlPlaneURL : String := "CONTROL_PLANE_URL"

def envSessionID : String := "SESSION_ID"

def envAgentCommand : String := "AGENT_COMMAND"

def envAgentArgs : String := "AGENT_ARGS"

def envAgentUser : String := "AGENT_USER"

def envAgentWorkdir : String := "AGENT_WORKDIR"

def defaultUser : String := "agent"

def defaultWorkdir : String := "/workspace"

/-! ## The world and what a run shows of itself -/

/-- What the process is started with and how the operating system answers.
Each system call that can fail has an oracle telling whether it succeeds. -/
structure World where
  /-- The initial environment. -/
  env : Env
  /-- The argument vector `os.Args`. -/
  args : List String
  /-- The result of `os.Getuid()`. -/
  getuid : Int
  /-- What `os.ReadFile("/etc/passwd")` gives, `none` when it fails. -/
  passwd : Option String
  /-- Whether `os.Chdir(dir)` succeeds. -/
  chdirOk : String → Bool
  /-- Whether `syscall.Setgroups(gids)` succeeds. -/
  setgroupsOk : List Int → Bool
  /-- Whether `syscall.Setgid(gid)` succeeds. -/
  setgidOk : Int → Bool
  /-- Whether `syscall.Setuid(uid)` succeeds. -/
  setuidOk : Int → Bool
  /-- Whether `file` names an executable file (`findExecutable` of `os/exec`). -/
  findExecutable : String → Bool
  /-- The search of `exec.LookPath` along the directories of `PATH` (its first
  argument is the value of `PATH`) for a name without a slash. -/
  searchPath : String → String → Option String
  /-- Whether `syscall.Exec(path, argv, env)` succeeds. -/
  execOk : String → List String → Env → Bool

/-- The messages passed to `fatal`. -/
inductive FatalMsg where
  /-- Message "no agent command specified (set AGENT_COMMAND or pass as argument)". -/
  | noCommand
  /-- Message "agent binary not found: %s: %v". -/
  | binaryNotFound (agentCmd : String)
  /-- Message "setgid(%d): %v". -/
  | setgid (gid : Int)
  /-- Message "setuid(%d): %v". -/
  | setuid (uid : Int)
  /-- Message "exec %s: %v". -/
  | exec (agentBin : String)
  deriving DecidableEq, Repr

/-- The lines written to standard error, by the data they are formatted
from. -/
inductive Diag where
  /-- Message "session_id=%s control_plane=%s token_present=%t". -/
  | banner (sessionID controlPlaneURL : String) (tokenPresent : Bool)
  /-- Message "warning: chdir %s: %v". -/
  | warnChdir (workdir : String)
  /-- Message "not root (uid=%d), skipping privilege drop". -/
  | notRoot (uid : Int)
  /-- Message "warning: user lookup %q: %v (continuing as root)". -/
  | warnLookup (username : String) (err : LookupError)
  /-- Message "warning: setgroups: %v". -/
  | warnSetgroups
  /-- Message "dropped privileges to %s (uid=%d gid=%d)". -/
  | dropped (username : String) (uid gid : Int)
  /-- Message "exec: %s %v (workdir=%s)". -/
  | execLine (agentBin : String) (agentArgs : List String) (workdir : String)
  /-- Message "fatal: %s". -/
  | fatal (msg : FatalMsg)
  deriving DecidableEq, Repr

/-- What a run does that can be seen from outside, in order. -/
inductive Event where
  | stderr (d : Diag)
  | chdir (dir : String)
  | readFile (path : String)
  | setgroups (gids : List Int)
  | setgid (gid : Int)
  | setuid (uid : Int)
  | lookPath (file : String)
  | exec (path : String) (argv : List String) (env : Env)
  | exit (code : Int)
  deriving DecidableEq, Repr

/-- How a call ends: it returns to its caller, or the process is gone, by
`os.Exit(code)` or because `syscall.Exec` replaced it. -/
inductive Status where
  | returned
  | exited (code : Int)
  | replaced
  deriving DecidableEq, Repr

/-- A run: the events in order and how it ended. -/
structure Run where
  trace : List Event
  status : Status
  deriving DecidableEq, Repr

/-- The function `fatal` (main.go lines 165 to 168): one line on standard
error, then `os.Exit(1)`. -/
def fatal (msg : FatalMsg) : Run :=
  ⟨[.stderr (.fatal msg), .exit 1], .exited 1⟩

/-- The function `exec.LookPath` on Unix: a name with a slash is tried as it is
and returned unchanged when it is executable; any other name is searched for
along `PATH`. -/
def LookPath (w : World) (env : Env) (file : String) : Option String :=
  if '/' ∈ file.data then
    if w.findExecutable file then some file else none
  else w.searchPath (Getenv env "PATH") file

/-! ## `dropPrivileges` and `main` -/

/-- The function `dropPrivileges` (main.go lines 111 to 134). -/
def dropPrivileges (w : World) (username : String) : Run :=
  if w.getuid ≠ 0 then
    ⟨[.stderr (.notRoot w.getuid)], .returned⟩
  else
    match lookupUser w.passwd username with
    | (_, _, some err) =>
      ⟨[.readFile "/etc/passwd", .stderr (.warnLookup username err)], .returned⟩
    | (uid, gid, none) =>
      let t := [.readFile "/etc/passwd", .setgroups [gid]] ++
        (if w.setgroupsOk [gid] then [] else [Event.stderr .warnSetgroups])
      if ¬ w.setgidOk gid then
        ⟨t ++ [.setgid gid] ++ (fatal (.setgid gid)).trace, (fatal (.setgid gid)).status⟩
      else if ¬ w.setuidOk uid then
        ⟨t ++ [.setgid gid, .setuid uid] ++ (fatal (.setuid uid)).trace,
          (fatal (.setuid uid)).status⟩
      else
        ⟨t ++ [.setgid gid, .setuid uid, .stderr (.dropped username uid gid)], .returned⟩

/-- The control-plane values `main` keeps in local variables. -/
structure ControlPlane where
  sessionToken : String
  controlPlaneURL : String
  sessionID : String
  deriving DecidableEq, Repr

/-- The first step of `main` (main.go lines 33 to 41): the three control-plane
variables are read into locals, then removed from the environment. -/
def readControlPlane (env : Env) : ControlPlane × Env :=
  let sessionToken := Getenv env envSessionToken
  let controlPlaneURL := Getenv env envControlPlaneURL
  let sessionID := Getenv env envSessionID
  let env := Unsetenv env envSessionToken
  let env := Unsetenv env envControlPlaneURL
  let env := Unsetenv env envSessionID
  (⟨sessionToken, controlPlaneURL, sessionID⟩, env)

/-- The function `main` (main.go lines 31 to 106). -/
def main (w : World) : Run :=
  let cp := (readControlPlane w.env).1
  let env := (readControlPlane w.env).2
  let t := [Event.stderr
    (.banner cp.sessionID cp.controlPlaneURL (decide (cp.sessionToken ≠ "")))]
  -- Resolve agent command.
  let agentCmd := Getenv env envAgentCommand
  if agentCmd = "" ∧ ¬ w.args.length > 1 then
    ⟨t ++ (fatal .noCommand).trace, (fatal .noCommand).status⟩
  else
  let agentCmd := if agentCmd = "" then w.args.getD 1 "" else agentCmd
  -- Resolve agent args.
  let argsStr := Getenv env envAgentArgs
  let agentArgs : List String :=
    if argsStr ≠ "" then Fields argsStr
    else if w.args.length > 2 then w.args.drop 2
    else []
  -- Clean up agent config vars from env.
  let env := Unsetenv env envAgentCommand
  let env := Unsetenv env envAgentArgs
  -- Set working directory.
  let workdir := Getenv env envAgentWorkdir
  let workdir := if workdir = "" then defaultWorkdir else workdir
  let env := Unsetenv env envAgentWorkdir
  let t := t ++ [.chdir workdir] ++
    (if w.chdirOk workdir then [] else [Event.stderr (.warnChdir workdir)])
  -- Drop privileges to the agent user.
  let targetUser := Getenv env envAgentUser
  let targetUser := if targetUser = "" then defaultUser else targetUser
  let env := Unsetenv env envAgentUser
  let dp := dropPrivileges w targetUser
  match dp.status with
  | .exited code => ⟨t ++ dp.trace, .exited code⟩
  | .replaced => ⟨t ++ dp.trace, .replaced⟩
  | .returned =>
    let t := t ++ dp.trace ++ [.lookPath agentCmd]
    -- Resolve the full path to the agent binary.
    match LookPath w env agentCmd with
    | none =>
      ⟨t ++ (fatal (.binaryNotFound agentCmd)).trace, (fatal (.binaryNotFound agentCmd)).status⟩
    | some agentBin =>
      -- Build the exec argv and the sanitized environment.
      let argv := agentBin :: agentArgs
      let envv := Environ env
      let t := t ++ [.stderr (.execLine agentBin agentArgs workdir), .exec agentBin argv envv]
      if w.execOk agentBin argv envv then ⟨t, .replaced⟩
      else ⟨t ++ (fatal (.exec agentBin)).trace, (fatal (.exec agentBin)).status⟩

/-! ## Notions used to state and prove the properties -/

/-- The environment `main` hands to `syscall.Exec`: the initial one after the
seven removals, in the order `main` makes them. -/
def finalEnv (env : Env) : Env :=
  Unsetenv (Unsetenv (Unsetenv (Unsetenv (readControlPlane env).2 envAgentCommand)
    envAgentArgs) envAgentWorkdir) envAgentUser

/-- The command `main` settles on (main.go lines 48 to 56), when there is
one. -/
def agentCmdOf (w : World) : String :=
  if Getenv (readControlPlane w.env).2 envAgentCommand = "" then w.args.getD 1 ""
  else Getenv (readControlPlane w.env).2 envAgentCommand

/-- The arguments `main` settles on (main.go lines 59 to 64). -/
def agentArgsOf (w : World) : List String :=
  if Getenv (readControlPlane w.env).2 envAgentArgs ≠ "" then
    Fields (Getenv (readControlPlane w.env).2 envAgentArgs)
  else if w.args.length > 2 then w.args.drop 2
  else []

/-- The working directory `main` settles on (main.go lines 71 to 74). -/
def workdirOf (w : World) : String :=
  if Getenv (Unsetenv (Unsetenv (readControlPlane w.env).2 envAgentCommand) envAgentArgs)
      envAgentWorkdir = "" then defaultWorkdir
  else Getenv (Unsetenv (Unsetenv (readControlPlane w.env).2 envAgentCommand) envAgentArgs)
      envAgentWorkdir

/-- The user `main` settles on (main.go lines 81 to 84). -/
def targetUserOf (w : World) : String :=
  if Getenv (Unsetenv (Unsetenv (Unsetenv (readControlPlane w.env).2 envAgentCommand)
      envAgentArgs) envAgentWorkdir) envAgentUser = "" then defaultUser
  else Getenv (Unsetenv (Unsetenv (Unsetenv (readControlPlane w.env).2 envAgentCommand)
      envAgentArgs) envAgentWorkdir) envAgentUser

/-- The events of `main` up to the call of `dropPrivileges`. -/
def headTrace (w : World) : List Event :=
  [Event.stderr (.banner (readControlPlane w.env).1.sessionID
      (readControlPlane w.env).1.controlPlaneURL
      (decide ((readControlPlane w.env).1.sessionToken ≠ "")))] ++
    [.chdir (workdirOf w)] ++
    (if w.chdirOk (workdirOf w) then [] else [Event.stderr (.warnChdir (workdirOf w))])

/-- A line that `lookupUser` passes over when it looks for `username`: it has
fewer than four fields, or its first field is another name. -/
def passedOver (username line : String) : Prop :=
  (Split line ':').length < 4 ∨ (Split line ':').head? ≠ some username

/-- The calls that change the identity of the process. -/
def isPrivCall : Event → Bool
  | .setgroups _ => true
  | .setgid _ => true
  | .setuid _ => true
  | _ => false

/-- A concrete start: the process is not superuser, the control-plane
variables and the agent command are set, and every call succeeds. -/
def devWorld : World where
  env := [("PATH", "/usr/bin:/bin"), ("SESSION_TOKEN", "test-token"),
    ("CONTROL_PLANE_URL", "http://localhost:8090"), ("SESSION_ID", "session-1"),
    ("AGENT_COMMAND", "/bin/echo"), ("AGENT_ARGS", "hello world"), ("HOME", "/root")]
  args := ["entrypoint"]
  getuid := 1000
  passwd := some "root:x:0:0:root:/root:/bin/sh\nagent:x:1000:1001::/home/agent:/bin/sh\n"
  chdirOk := fun _ => true
  setgroupsOk := fun _ => true
  setgidOk := fun _ => true
  setuidOk := fun _ => true
  findExecutable := fun _ => true
  searchPath := fun _ _ => none
  execOk := fun _ _ _ => true

/-- The superuser in a world where `setgroups` fails and the rest succeeds. -/
def rootWorld : World :=
  { devWorld with getuid := 0, setgroupsOk := fun _ => false }

/-- A start with no command at all: AGENT_COMMAND is absent and the argument
vector has only the program name. -/
def noCommandWorld : World :=
  { rootWorld with
    env := [("PATH", "/usr/bin:/bin"), ("SESSION_TOKEN", "test-token"), ("AGENT_ARGS", "-v")]
    args := ["entrypoint"] }

/-- A start with the command given as the one positional argument. -/
def positionalWorld : World :=
  { devWorld with
    env := [("PATH", "/usr/bin:/bin"), ("SESSION_ID", "session-1")]
    args := ["entrypoint", "/bin/true"] }

/-! ## The library layer on examples -/

theorem Split_examples :
    Split "a:b::c" ':' = ["a", "b", "", "c"] ∧ Split "" ':' = [""] ∧
    Split "root:x:0:0\n" '\n' = ["root:x:0:0", ""] := by
  decide

theorem Fields_examples :
    Fields "  hello   world " = ["hello", "world"] ∧ Fields " \t\n" = [] ∧
    Fields "" = [] ∧ Fields "a\tb\nc" = ["a", "b", "c"] := by
  decide

theorem Atoi_examples :
    Atoi "-12" = (-12, none) ∧ Atoi "+7" = (7, none) ∧ Atoi "007" = (7, none) ∧
    Atoi "" = (0, some .invalid) ∧ Atoi "+" = (0, some .invalid) ∧
    Atoi "1_000" = (0, some .invalid) ∧ Atoi " 1" = (0, some .invalid) ∧
    Atoi "9223372036854775807" = (9223372036854775807, none) ∧
    Atoi "9223372036854775808" = (0, some .outOfRange) ∧
    Atoi "-9223372036854775808" = (-9223372036854775808, none) ∧
    Atoi "-9223372036854775809" = (0, some .outOfRange) ∧
    Atoi "99999999999999999999x" = (0, some .outOfRange) := by
  decide

/-! ## Lemmas on the environment -/

theorem mem_Unsetenv (env : Env) (key : String) (kv : String × String) :
    kv ∈ Unsetenv env key ↔ kv ∈ env ∧ kv.1 ≠ key := by
  simp [Unsetenv]

theorem LookupEnv_eq_none_iff (env : Env) (key : String) :
    LookupEnv env key = none ↔ ∀ v, (key, v) ∉ env := by
  induction env with
  | nil => simp [LookupEnv]
  | cons kv rest ih =>
    obtain ⟨k, v⟩ := kv
    by_cases hk : k = key
    · subst hk
      simp only [LookupEnv, if_true]
      constructor
      · intro h; cases h
      · intro h; exact absurd (List.mem_cons_self _ _) (h v)
    · simp only [LookupEnv, if_neg hk, ih]
      constructor
      · intro h v2 hm
        rcases List.mem_cons.1 hm with heq | hm2
        · exact hk (by cases heq; rfl)
        · exact h v2 hm2
      · intro h v2 hm
        exact h v2 (List.mem_cons_of_mem _ hm)

theorem LookupEnv_Unsetenv_self (env : Env) (key : String) :
    LookupEnv (Unsetenv env key) key = none := by
  rw [LookupEnv_eq_none_iff]
  intro v hm
  exact ((mem_Unsetenv env key (key, v)).1 hm).2 rfl

theorem LookupEnv_Unsetenv_ne (env : Env) (key other : String) (h : key ≠ other) :
    LookupEnv (Unsetenv env key) other = LookupEnv env other := by
  induction env with
  | nil => rfl
  | cons kv rest ih =>
    obtain ⟨k, v⟩ := kv
    by_cases hk : k = key
    · have hne : k ≠ other := by rw [hk]; exact h
      have : Unsetenv ((k, v) :: rest) key = Unsetenv rest key := by
        simp [Unsetenv, hk]
      rw [this, ih]
      simp [LookupEnv, hne]
    · have : Unsetenv ((k, v) :: rest) key = (k, v) :: Unsetenv rest key := by
        simp [Unsetenv, hk]
      rw [this]
      simp only [LookupEnv, ih]

theorem Getenv_Unsetenv_self (env : Env) (key : String) :
    Getenv (Unsetenv env key) key = "" := by
  simp [Getenv, LookupEnv_Unsetenv_self]

theorem Getenv_Unsetenv_ne (env : Env) (key other : String) (h : key ≠ other) :
    Getenv (Unsetenv env key) other = Getenv env other := by
  simp [Getenv, LookupEnv_Unsetenv_ne env key other h]

theorem Unsetenv_of_absent (env : Env) (key : String) (h : LookupEnv env key = none) :
    Unsetenv env key = env := by
  rw [LookupEnv_eq_none_iff] at h
  unfold Unsetenv
  rw [List.filter_eq_self]
  intro kv hm
  obtain ⟨k, v⟩ := kv
  simp only [ne_eq, decide_eq_true_eq]
  intro hk
  exact h v (by rw [← hk]; exact hm)

theorem LookupEnv_Unsetenv_absent (env : Env) (key other : String)
    (h : LookupEnv env other = none) : LookupEnv (Unsetenv env key) other = none := by
  rw [LookupEnv_eq_none_iff] at *
  intro v hm
  exact h v ((mem_Unsetenv env key (other, v)).1 hm).1

/-! ## Lemmas on `dropPrivileges` and `main` -/

theorem dropPrivileges_no_exec (w : World) (username path : String) (argv : List String)
    (envv : Env) : Event.exec path argv envv ∉ (dropPrivileges w username).trace := by
  unfold dropPrivileges
  split
  · simp
  · split
    · simp
    · split_ifs <;> simp [fatal]

/-- The function `main` with its local variables named. -/
theorem main_eq (w : World) :
    main w =
      if Getenv (readControlPlane w.env).2 envAgentCommand = "" ∧ ¬ w.args.length > 1 then
        ⟨[Event.stderr (.banner (readControlPlane w.env).1.sessionID
            (readControlPlane w.env).1.controlPlaneURL
            (decide ((readControlPlane w.env).1.sessionToken ≠ "")))] ++
          (fatal .noCommand).trace, (fatal .noCommand).status⟩
      else
        match (dropPrivileges w (targetUserOf w)).status with
        | .exited code =>
          ⟨headTrace w ++ (dropPrivileges w (targetUserOf w)).trace, .exited code⟩
        | .replaced => ⟨headTrace w ++ (dropPrivileges w (targetUserOf w)).trace, .replaced⟩
        | .returned =>
          match LookPath w (finalEnv w.env) (agentCmdOf w) with
          | none =>
            ⟨headTrace w ++ (dropPrivileges w (targetUserOf w)).trace ++
              [.lookPath (agentCmdOf w)] ++ (fatal (.binaryNotFound (agentCmdOf w))).trace,
              (fatal (.binaryNotFound (agentCmdOf w))).status⟩
          | some agentBin =>
            if w.execOk agentBin (agentBin :: agentArgsOf w) (Environ (finalEnv w.env)) then
              ⟨headTrace w ++ (dropPrivileges w (targetUserOf w)).trace ++
                [.lookPath (agentCmdOf w)] ++
                [.stderr (.execLine agentBin (agentArgsOf w) (workdirOf w)),
                  .exec agentBin (agentBin :: agentArgsOf w) (Environ (finalEnv w.env))],
                .replaced⟩
            else
              ⟨headTrace w ++ (dropPrivileges w (targetUserOf w)).trace ++
                [.lookPath (agentCmdOf w)] ++
                [.stderr (.execLine agentBin (agentArgsOf w) (workdirOf w)),
                  .exec agentBin (agentBin :: agentArgsOf w) (Environ (finalEnv w.env))] ++
                (fatal (.exec agentBin)).trace, (fatal (.exec agentBin)).status⟩ := by
  rfl

theorem headTrace_no_exec (w : World) (path : String) (argv : List String)
    (envv : Env) : Event.exec path argv envv ∉ headTrace w := by
  unfold headTrace
  split_ifs <;> simp

/-- What `main` has done when its trace shows a call of `syscall.Exec`. -/
theorem main_exec_inv (w : World) (path : String) (argv : List String) (envv : Env)
    (h : Event.exec path argv envv ∈ (main w).trace) :
    ¬ (Getenv (readControlPlane w.env).2 envAgentCommand = "" ∧ ¬ w.args.length > 1) ∧
    (dropPrivileges w (targetUserOf w)).status = .returned ∧
    LookPath w (finalEnv w.env) (agentCmdOf w) = some path ∧
    argv = path :: agentArgsOf w ∧
    envv = finalEnv w.env := by
  rw [main_eq] at h
  split at h
  · simp [fatal] at h
  · rename_i hcmd
    refine ⟨hcmd, ?_⟩
    split at h
    · simp [dropPrivileges_no_exec, headTrace_no_exec] at h
    · simp [dropPrivileges_no_exec, headTrace_no_exec] at h
    · rename_i hdp
      refine ⟨hdp, ?_⟩
      split at h
      · simp [dropPrivileges_no_exec, headTrace_no_exec, fatal] at h
      · rename_i agentBin hlp
        have key : path = agentBin ∧ argv = agentBin :: agentArgsOf w ∧
            envv = Environ (finalEnv w.env) := by
          split at h <;> simpa [dropPrivileges_no_exec, headTrace_no_exec, fatal] using h
        obtain ⟨h1, h2, h3⟩ := key
        subst h1
        exact ⟨hlp, h2, h3⟩

/-! ## Lemmas on `lookupUser` -/

theorem splitChars_ne_nil (sep : Char) (cs : List Char) : splitChars sep cs ≠ [] := by
  cases cs with
  | nil => simp [splitChars]
  | cons c cs =>
    unfold splitChars
    split_ifs
    · simp
    · split <;> simp

theorem Split_ne_nil (s : String) (sep : Char) : Split s sep ≠ [] := by
  simp [Split, splitChars_ne_nil]

/-- The pieces of a split, joined with the separator between them, are the
sequence that was split. -/
theorem splitChars_join (sep : Char) (cs : List Char) :
    List.intercalate [sep] (splitChars sep cs) = cs := by
  induction cs with
  | nil => simp [splitChars, List.intercalate]
  | cons c cs ih =>
    unfold splitChars
    rcases hs : splitChars sep cs with _ | ⟨p, ps⟩
    · exact absurd hs (splitChars_ne_nil sep cs)
    · rw [hs] at ih
      split_ifs with hc
      · subst hc
        simp only [List.intercalate, List.intersperse, List.flatten] at ih ⊢
        simp [ih]
      · simp only [List.intercalate] at ih ⊢
        cases ps with
        | nil => simp at ih ⊢; exact ih
        | cons q qs => simp at ih ⊢; exact ih

/-- No piece of a split has the separator in it. -/
theorem splitChars_no_sep (sep : Char) (cs : List Char) :
    ∀ p ∈ splitChars sep cs, sep ∉ p := by
  induction cs with
  | nil => simp [splitChars]
  | cons c cs ih =>
    unfold splitChars
    split_ifs with hc
    · intro p hp
      rcases List.mem_cons.1 hp with rfl | hp
      · simp
      · exact ih p hp
    · rcases hs : splitChars sep cs with _ | ⟨q, qs⟩
      · intro p hp
        simp at hp
        subst hp
        simp [Ne.symm hc]
      · rw [hs] at ih
        intro p hp
        rcases List.mem_cons.1 hp with rfl | hp
        · have := ih q (by simp)
          simp [Ne.symm hc, this]
        · exact ih p (by simp [hp])

/-- The fields, one after the other, are the characters that are not white
space. -/
theorem fieldsChars_join (cs cur : List Char) :
    (fieldsChars cs cur).flatten = cur.reverse ++ cs.filter (fun c => !isSpace c) := by
  induction cs generalizing cur with
  | nil => unfold fieldsChars; split_ifs with h <;> simp [h]
  | cons c cs ih =>
    unfold fieldsChars
    split_ifs with h1 h2
    · simp [ih, h1, h2]
    · simp [ih, h1]
    · simp [ih, h1]

/-- Every field has a character and no white space. -/
theorem fieldsChars_fields (cs cur : List Char) (hcur : ∀ c ∈ cur, isSpace c = false) :
    ∀ f ∈ fieldsChars cs cur, f ≠ [] ∧ ∀ c ∈ f, isSpace c = false := by
  induction cs generalizing cur with
  | nil =>
    unfold fieldsChars
    split_ifs with h
    · simp
    · intro f hf
      simp at hf
      subst hf
      exact ⟨by simpa using h, fun c hc => hcur c (by simpa using hc)⟩
  | cons c cs ih =>
    unfold fieldsChars
    split_ifs with h1 h2
    · exact ih [] (by simp)
    · intro f hf
      rcases List.mem_cons.1 hf with rfl | hf
      · exact ⟨by simpa using h2, fun c hc => hcur c (by simpa using hc)⟩
      · exact ih [] (by simp) f hf
    · apply ih
      intro d hd
      rcases List.mem_cons.1 hd with rfl | hd
      · simpa using h1
      · exact hcur d hd
/-- What `Split` gives is a split of `s` at the separator: joined with the
separator the pieces give `s` back, and no piece has the separator in it. -/
theorem Split_spec (s : String) (sep : Char) :
    List.intercalate [sep] ((Split s sep).map String.data) = s.data ∧
    ∀ p ∈ Split s sep, sep ∉ p.data := by
  constructor
  · have h : (Split s sep).map String.data = splitChars sep s.data := by
      simp [Split, Function.comp_def]
    rw [h, splitChars_join]
  · intro p hp
    simp only [Split, List.mem_map] at hp
    obtain ⟨q, hq, rfl⟩ := hp
    exact splitChars_no_sep sep s.data q hq

/-- What `Fields` gives are runs of `s` without white space: each has a
character and no white space, and together they are the characters of `s` that
are not white space, in order. -/
theorem Fields_spec (s : String) :
    (∀ f ∈ Fields s, f.data ≠ [] ∧ ∀ c ∈ f.data, isSpace c = false) ∧
    ((Fields s).map String.data).flatten = s.data.filter (fun c => !isSpace c) := by
  constructor
  · intro f hf
    simp only [Fields, List.mem_map] at hf
    obtain ⟨q, hq, rfl⟩ := hf
    exact fieldsChars_fields s.data [] (by simp) q hq
  · have h : (Fields s).map String.data = fieldsChars s.data [] := by
      simp [Fields, Function.comp_def]
    rw [h, fieldsChars_join]
    rfl

theorem lookupUserLines_cons_passedOver (username line : String) (rest : List String)
    (h : passedOver username line) :
    lookupUserLines username (line :: rest) = lookupUserLines username rest := by
  unfold passedOver at h
  rw [lookupUserLines]
  split_ifs with h1 h2
  · rfl
  · exfalso
    rcases h with h | h
    · exact h1 h
    · apply h
      rcases hs : Split line ':' with _ | ⟨f0, fs⟩
      · exact absurd hs (Split_ne_nil _ _)
      · rw [hs] at h2
        simpa using h2
  · rfl

theorem lookupUserLines_append_passedOver (username : String) (pre rest : List String)
    (h : ∀ p ∈ pre, passedOver username p) :
    lookupUserLines username (pre ++ rest) = lookupUserLines username rest := by
  induction pre with
  | nil => rfl
  | cons p ps ih =>
    rw [List.cons_append, lookupUserLines_cons_passedOver username p _ (h p (by simp))]
    exact ih (fun q hq => h q (List.mem_cons_of_mem _ hq))

theorem lookupUserLines_cons_match (username line f1 f2 f3 : String) (more rest : List String)
    (h : Split line ':' = username :: f1 :: f2 :: f3 :: more) :
    lookupUserLines username (line :: rest) =
      match Atoi f2 with
      | (_, some e) => (0, 0, some (.parsingUid e))
      | (uid, none) =>
        match Atoi f3 with
        | (_, some e) => (0, 0, some (.parsingGid e))
        | (gid, none) => (uid, gid, none) := by
  rw [lookupUserLines]
  simp [h]

/-- Every line either is passed over or has at least four fields, the first
of which is the name looked for. -/
theorem passedOver_or_match (username line : String) :
    passedOver username line ∨
      ∃ f1 f2 f3 more, Split line ':' = username :: f1 :: f2 :: f3 :: more := by
  unfold passedOver
  rcases hs : Split line ':' with _ | ⟨f0, _ | ⟨f1, _ | ⟨f2, _ | ⟨f3, more⟩⟩⟩⟩
  · simp
  · simp
  · simp
  · simp
  · by_cases h0 : f0 = username
    · right
      exact ⟨f1, f2, f3, more, by rw [h0]⟩
    · left
      right
      simpa using h0

/-- A result of `Atoi` without error lies in the range of a 64-bit `int`. -/
theorem Atoi_range (s : String) (n : Int) (h : Atoi s = (n, none)) :
    -(2 ^ 63 : Int) ≤ n ∧ n < 2 ^ 63 := by
  unfold Atoi at h
  split at h
  · rename_i m hm
    simp only [Prod.mk.injEq, and_true] at h
    subst h
    unfold ParseInt at hm
    split at hm
    · cases hm
    · simp only [] at hm
      split at hm
      · cases hm
      · rename_i un _
        simp only [intSize] at hm
        split_ifs at hm with h1 h2 h3
        · injection hm with hm
          subst hm
          simp only [decide_eq_true_eq, not_and, not_lt] at h1 h2 h3
          have := h2 h3
          omega
        · injection hm with hm
          subst hm
          simp only [decide_eq_true_eq, not_and, not_lt, not_not, ge_iff_le, not_le] at h1 h2 h3
          have := h1 h3
          omega
  · simp at h

/-- How `lookupUser` comes to return without error: some line is the first
that is not passed over, and the result is read from its third and fourth
fields. -/
theorem lookupUserLines_ok_inv (username : String) (lines : List String) (uid gid : Int)
    (h : lookupUserLines username lines = (uid, gid, none)) :
    ∃ pre line post f1 f2 f3 more,
      lines = pre ++ line :: post ∧ (∀ p ∈ pre, passedOver username p) ∧
      Split line ':' = username :: f1 :: f2 :: f3 :: more ∧
      Atoi f2 = (uid, none) ∧ Atoi f3 = (gid, none) := by
  induction lines with
  | nil => simp [lookupUserLines] at h
  | cons l rest ih =>
    rcases passedOver_or_match username l with hp | ⟨f1, f2, f3, more, hm⟩
    · rw [lookupUserLines_cons_passedOver username l rest hp] at h
      obtain ⟨pre, line, post, g1, g2, g3, gm, h1, h2, h3, h4, h5⟩ := ih h
      refine ⟨l :: pre, line, post, g1, g2, g3, gm, by rw [h1]; rfl, ?_, h3, h4, h5⟩
      intro p hpm
      rcases List.mem_cons.1 hpm with rfl | hpm
      · exact hp
      · exact h2 p hpm
    · rw [lookupUserLines_cons_match username l f1 f2 f3 more rest hm] at h
      refine ⟨[], l, rest, f1, f2, f3, more, rfl, by simp, hm, ?_⟩
      rcases h2 : Atoi f2 with ⟨u, _ | e⟩
      · rcases h3 : Atoi f3 with ⟨g, _ | e3⟩
        · rw [h2, h3] at h
          simp only [Prod.mk.injEq, and_true] at h
          rw [h.1, h.2]
          exact ⟨rfl, rfl⟩
        · rw [h2, h3] at h
          simp at h
      · rw [h2] at h
        simp at h

/-! ## Claims on `lookupUser` -/

/-- C4: for a readable account database, `lookupUser` passes over the lines
with fewer than four colon-delimited fields and the lines whose first field is
not the username, and returns the integers parsed from the third and fourth
fields of the first line left, whatever the later lines are. In particular a
database whose first such line for "root" is "root:x:0:0:..." resolves "root"
to uid 0 and gid 0. -/
theorem lookupUser_first_match :
    (∀ (text username : String) (pre post : List String) (line f1 f2 f3 : String)
        (more : List String) (u g : Int),
      Split text '\n' = pre ++ line :: post →
      (∀ p ∈ pre, (Split p ':').length < 4 ∨ (Split p ':').head? ≠ some username) →
      Split line ':' = username :: f1 :: f2 :: f3 :: more →
      Atoi f2 = (u, none) → Atoi f3 = (g, none) →
      lookupUser (some text) username = (u, g, none)) ∧
    (∀ (text : String) (pre post : List String) (line : String) (more : List String),
      Split text '\n' = pre ++ line :: post →
      (∀ p ∈ pre, (Split p ':').length < 4 ∨ (Split p ':').head? ≠ some "root") →
      Split line ':' = "root" :: "x" :: "0" :: "0" :: more →
      lookupUser (some text) "root" = (0, 0, none)) := by
  have gen : ∀ (text username : String) (pre post : List String) (line f1 f2 f3 : String)
      (more : List String) (u g : Int),
      Split text '\n' = pre ++ line :: post →
      (∀ p ∈ pre, (Split p ':').length < 4 ∨ (Split p ':').head? ≠ some username) →
      Split line ':' = username :: f1 :: f2 :: f3 :: more →
      Atoi f2 = (u, none) → Atoi f3 = (g, none) →
      lookupUser (some text) username = (u, g, none) := by
    intro text username pre post line f1 f2 f3 more u g hs hpre hl h2 h3
    show lookupUserLines username (Split text '\n') = (u, g, none)
    rw [hs, lookupUserLines_append_passedOver username pre _ hpre,
      lookupUserLines_cons_match username line f1 f2 f3 more post hl, h2, h3]
  refine ⟨gen, ?_⟩
  intro text pre post line more hs hpre hl
  exact gen text "root" pre post line "x" "0" "0" more 0 0 hs hpre hl (by decide) (by decide)

/-- C4, on an account database with a short line, then two lines for "root" and
one for "agent". -/
theorem lookupUser_first_match_witness :
    lookupUser (some "daemon:x:1\nroot:x:0:0:root:/root:/bin/bash\nroot:x:5:6::/:/bin/sh\nagent:x:1000:1001::/home/agent:/bin/sh\n")
        "root" = (0, 0, none) ∧
    lookupUser (some "daemon:x:1\nroot:x:0:0:root:/root:/bin/bash\nroot:x:5:6::/:/bin/sh\nagent:x:1000:1001::/home/agent:/bin/sh\n")
        "agent" = (1000, 1001, none) :=
  ⟨lookupUser_first_match.2 _ ["daemon:x:1"]
      ["root:x:5:6::/:/bin/sh", "agent:x:1000:1001::/home/agent:/bin/sh", ""]
      "root:x:0:0:root:/root:/bin/bash" ["root", "/root", "/bin/bash"]
      (by decide) (by decide) (by decide),
    lookupUser_first_match.1 _ "agent"
      ["daemon:x:1", "root:x:0:0:root:/root:/bin/bash", "root:x:5:6::/:/bin/sh"] [""]
      "agent:x:1000:1001::/home/agent:/bin/sh" "x" "1000" "1001" ["", "/home/agent", "/bin/sh"]
      1000 1001 (by decide) (by decide) (by decide) (by decide) (by decide)⟩

/-- C5: for a readable account database no line of which has the username as
its first colon-delimited field, `lookupUser` returns the not-found error with
uid 0 and gid 0. -/
theorem lookupUser_not_found (text username : String)
    (h : ∀ line ∈ Split text '\n', (Split line ':').head? ≠ some username) :
    lookupUser (some text) username = (0, 0, some (.notFound username)) := by
  show lookupUserLines username (Split text '\n') = _
  have hp : ∀ p ∈ Split text '\n', passedOver username p := fun p hp => Or.inr (h p hp)
  have := lookupUserLines_append_passedOver username (Split text '\n') [] hp
  rw [List.append_nil] at this
  rw [this]
  rfl

/-- C5, on the name the test looks up. -/
theorem lookupUser_not_found_witness :
    (∀ line ∈ Split "root:x:0:0:root:/root:/bin/bash\nagent:x:1000:1000::/home/agent:/bin/sh\n" '\n',
      (Split line ':').head? ≠ some "nonexistent_user_12345") ∧
    lookupUser (some "root:x:0:0:root:/root:/bin/bash\nagent:x:1000:1000::/home/agent:/bin/sh\n")
      "nonexistent_user_12345" = (0, 0, some (.notFound "nonexistent_user_12345")) :=
  ⟨by decide, lookupUser_not_found _ _ (by decide)⟩

/-- C6 fails as stated: a record with a non-numeric third field that comes
after another record of the same username is never reached, and a record with
only three fields is passed over whatever its third field is. -/
theorem lookupUser_malformed_counterexample :
    ("bob:x:zz:1" ∈ Split "bob:x:1:1\nbob:x:zz:1" '\n' ∧
      Split "bob:x:zz:1" ':' = ["bob", "x", "zz", "1"] ∧
      Atoi "zz" = (0, some .invalid) ∧
      lookupUser (some "bob:x:1:1\nbob:x:zz:1") "bob" = (1, 1, none)) ∧
    ("bob:x:zz" ∈ Split "bob:x:zz" '\n' ∧
      Split "bob:x:zz" ':' = ["bob", "x", "zz"] ∧
      lookupUser (some "bob:x:zz") "bob" = (0, 0, some (.notFound "bob"))) := by
  decide

/-- C6 as amended: for every account database and every record in it that has
at least four colon-delimited fields, is the first such record for its
username, and whose third or fourth field is not a valid integer, `lookupUser`
called with that username fails with "parsing uid" (third field invalid) or
"parsing gid" (third field valid, fourth invalid). -/
theorem lookupUser_malformed (text username : String) (pre post : List String)
    (line f1 f2 f3 : String) (more : List String)
    (hs : Split text '\n' = pre ++ line :: post)
    (hpre : ∀ p ∈ pre, (Split p ':').length < 4 ∨ (Split p ':').head? ≠ some username)
    (hl : Split line ':' = username :: f1 :: f2 :: f3 :: more)
    (hbad : (Atoi f2).2 ≠ none ∨ (Atoi f3).2 ≠ none) :
    (∃ e, (Atoi f2).2 = some e ∧
      lookupUser (some text) username = (0, 0, some (.parsingUid e))) ∨
    (∃ e, (Atoi f2).2 = none ∧ (Atoi f3).2 = some e ∧
      lookupUser (some text) username = (0, 0, some (.parsingGid e))) := by
  have hrw : lookupUser (some text) username =
      match Atoi f2 with
      | (_, some e) => (0, 0, some (.parsingUid e))
      | (uid, none) =>
        match Atoi f3 with
        | (_, some e) => (0, 0, some (.parsingGid e))
        | (gid, none) => (uid, gid, none) := by
    show lookupUserLines username (Split text '\n') = _
    rw [hs, lookupUserLines_append_passedOver username pre _ hpre,
      lookupUserLines_cons_match username line f1 f2 f3 more post hl]
  rw [hrw]
  rcases h2 : Atoi f2 with ⟨u, _ | e⟩
  · rcases h3 : Atoi f3 with ⟨g, _ | e3⟩
    · rw [h2, h3] at hbad
      simp at hbad
    · right
      exact ⟨e3, rfl, rfl, rfl⟩
  · left
    exact ⟨e, rfl, rfl⟩

/-- C6 as amended, on a database whose first record for "bob" has a
non-numeric gid. -/
theorem lookupUser_malformed_witness :
    (∃ e, (Atoi "7").2 = some e ∧
      lookupUser (some "root:x:0:0\nbob:x:7:zz:Bob\nbob:x:1:1") "bob" =
        (0, 0, some (.parsingUid e))) ∨
    (∃ e, (Atoi "7").2 = none ∧ (Atoi "zz").2 = some e ∧
      lookupUser (some "root:x:0:0\nbob:x:7:zz:Bob\nbob:x:1:1") "bob" =
        (0, 0, some (.parsingGid e))) :=
  lookupUser_malformed "root:x:0:0\nbob:x:7:zz:Bob\nbob:x:1:1" "bob" ["root:x:0:0"]
    ["bob:x:1:1"] "bob:x:7:zz:Bob" "x" "7" "zz" ["Bob"]
    (by decide) (by decide) (by decide) (by decide)

/-- C7 fails as stated: a record may have more than four fields, and
`strconv.Atoi` accepts a sign, so the identifiers returned without error can be
negative. -/
theorem lookupUser_invariant_counterexample :
    Split "bob:x:-1:-2:Bob:/home/bob:/bin/sh" '\n' = ["bob:x:-1:-2:Bob:/home/bob:/bin/sh"] ∧
    (Split "bob:x:-1:-2:Bob:/home/bob:/bin/sh" ':').length = 7 ∧
    lookupUser (some "bob:x:-1:-2:Bob:/home/bob:/bin/sh") "bob" = (-1, -2, none) ∧
    (-1 : Int) < 0 ∧ (-2 : Int) < 0 := by
  decide

/-- C7 as amended: whenever `lookupUser` returns without error, the account
database was readable and the returned uid and gid are integers in the range
of a 64-bit `int`, parsed from the third and fourth fields of the first record
that has at least four colon-delimited fields and the username as its first
field. -/
theorem lookupUser_invariant (passwd : Option String) (username : String) (uid gid : Int)
    (h : lookupUser passwd username = (uid, gid, none)) :
    ∃ text pre line post f1 f2 f3 more,
      passwd = some text ∧ Split text '\n' = pre ++ line :: post ∧
      (∀ p ∈ pre, (Split p ':').length < 4 ∨ (Split p ':').head? ≠ some username) ∧
      Split line ':' = username :: f1 :: f2 :: f3 :: more ∧ 4 ≤ (Split line ':').length ∧
      Atoi f2 = (uid, none) ∧ Atoi f3 = (gid, none) ∧
      -(2 ^ 63 : Int) ≤ uid ∧ uid < 2 ^ 63 ∧ -(2 ^ 63 : Int) ≤ gid ∧ gid < 2 ^ 63 := by
  cases passwd with
  | none => simp [lookupUser] at h
  | some text =>
    obtain ⟨pre, line, post, f1, f2, f3, more, h1, h2, h3, h4, h5⟩ :=
      lookupUserLines_ok_inv username (Split text '\n') uid gid h
    refine ⟨text, pre, line, post, f1, f2, f3, more, rfl, h1, h2, h3, ?_, h4, h5,
      (Atoi_range f2 uid h4).1, (Atoi_range f2 uid h4).2,
      (Atoi_range f3 gid h5).1, (Atoi_range f3 gid h5).2⟩
    rw [h3]
    simp

/-- C7 as amended, on a record with seven fields and negative identifiers. -/
theorem lookupUser_invariant_witness :
    ∃ text pre line post f1 f2 f3 more,
      some "root:x:0:0\nbob:x:-1:-2:Bob:/home/bob:/bin/sh" = some text ∧
      Split text '\n' = pre ++ line :: post ∧
      (∀ p ∈ pre, (Split p ':').length < 4 ∨ (Split p ':').head? ≠ some "bob") ∧
      Split line ':' = "bob" :: f1 :: f2 :: f3 :: more ∧ 4 ≤ (Split line ':').length ∧
      Atoi f2 = (-1, none) ∧ Atoi f3 = (-2, none) ∧
      -(2 ^ 63 : Int) ≤ -1 ∧ (-1 : Int) < 2 ^ 63 ∧ -(2 ^ 63 : Int) ≤ -2 ∧ (-2 : Int) < 2 ^ 63 :=
  lookupUser_invariant (some "root:x:0:0\nbob:x:-1:-2:Bob:/home/bob:/bin/sh") "bob" (-1) (-2)
    (by decide)

/-! ## Lemmas on what `main` reads -/

theorem Getenv_readControlPlane (env : Env) (name : String)
    (h1 : envSessionToken ≠ name) (h2 : envControlPlaneURL ≠ name) (h3 : envSessionID ≠ name) :
    Getenv (readControlPlane env).2 name = Getenv env name := by
  simp only [readControlPlane]
  rw [Getenv_Unsetenv_ne _ _ _ h3, Getenv_Unsetenv_ne _ _ _ h2, Getenv_Unsetenv_ne _ _ _ h1]

theorem Getenv_agentCommand (env : Env) :
    Getenv (readControlPlane env).2 envAgentCommand = Getenv env "AGENT_COMMAND" :=
  Getenv_readControlPlane env _ (by decide) (by decide) (by decide)

theorem Getenv_agentArgs (env : Env) :
    Getenv (readControlPlane env).2 envAgentArgs = Getenv env "AGENT_ARGS" :=
  Getenv_readControlPlane env _ (by decide) (by decide) (by decide)

theorem agentCmdOf_eq (w : World) :
    agentCmdOf w =
      if Getenv w.env "AGENT_COMMAND" = "" then w.args.getD 1 ""
      else Getenv w.env "AGENT_COMMAND" := by
  unfold agentCmdOf
  rw [Getenv_agentCommand]

theorem agentArgsOf_eq (w : World) :
    agentArgsOf w =
      if Getenv w.env "AGENT_ARGS" ≠ "" then Fields (Getenv w.env "AGENT_ARGS")
      else if w.args.length > 2 then w.args.drop 2
      else [] := by
  unfold agentArgsOf
  rw [Getenv_agentArgs]

theorem targetUserOf_eq (w : World) :
    targetUserOf w =
      if Getenv w.env "AGENT_USER" = "" then "agent" else Getenv w.env "AGENT_USER" := by
  have h : Getenv (Unsetenv (Unsetenv (Unsetenv (readControlPlane w.env).2 envAgentCommand)
      envAgentArgs) envAgentWorkdir) envAgentUser = Getenv w.env "AGENT_USER" := by
    rw [Getenv_Unsetenv_ne _ _ _ (by decide), Getenv_Unsetenv_ne _ _ _ (by decide),
      Getenv_Unsetenv_ne _ _ _ (by decide)]
    exact Getenv_readControlPlane w.env _ (by decide) (by decide) (by decide)
  unfold targetUserOf
  rw [h]
  rfl

theorem Getenv_finalEnv (env : Env) (name : String)
    (h : name ∉ ["SESSION_TOKEN", "CONTROL_PLANE_URL", "SESSION_ID", "AGENT_COMMAND",
      "AGENT_ARGS", "AGENT_USER", "AGENT_WORKDIR"]) :
    Getenv (finalEnv env) name = Getenv env name := by
  simp only [List.mem_cons, List.mem_singleton, not_or, List.not_mem_nil, or_false] at h
  obtain ⟨h1, h2, h3, h4, h5, h6, h7⟩ := h
  unfold finalEnv
  rw [Getenv_Unsetenv_ne _ envAgentUser _ (Ne.symm h6),
    Getenv_Unsetenv_ne _ envAgentWorkdir _ (Ne.symm h7),
    Getenv_Unsetenv_ne _ envAgentArgs _ (Ne.symm h5),
    Getenv_Unsetenv_ne _ envAgentCommand _ (Ne.symm h4)]
  exact Getenv_readControlPlane env name (Ne.symm h1) (Ne.symm h2) (Ne.symm h3)

theorem LookPath_finalEnv (w : World) (file : String) :
    LookPath w (finalEnv w.env) file = LookPath w w.env file := by
  unfold LookPath
  rw [Getenv_finalEnv w.env "PATH" (by decide)]

theorem mem_finalEnv (env : Env) (kv : String × String) (h : kv ∈ finalEnv env) :
    kv ∈ env ∧ kv.1 ∉ ["SESSION_TOKEN", "CONTROL_PLANE_URL", "SESSION_ID", "AGENT_COMMAND",
      "AGENT_ARGS", "AGENT_USER", "AGENT_WORKDIR"] := by
  simp only [finalEnv, readControlPlane, mem_Unsetenv] at h
  obtain ⟨⟨⟨⟨⟨⟨⟨hm, h1⟩, h2⟩, h3⟩, h4⟩, h5⟩, h7⟩, h6⟩ := h
  refine ⟨hm, ?_⟩
  simp only [List.mem_cons, List.mem_singleton, not_or, List.not_mem_nil, or_false]
  exact ⟨h1, h2, h3, h4, h5, h6, h7⟩

theorem headTrace_no_privCall (w : World) : ∀ e ∈ headTrace w, isPrivCall e = false := by
  unfold headTrace
  split_ifs <;> simp [isPrivCall]

/-! ## Claims on `main` and `dropPrivileges` -/

/-- C1: whenever `main` reaches the call of `syscall.Exec`, the environment it
passes has no entry for SESSION_TOKEN, CONTROL_PLANE_URL, SESSION_ID,
AGENT_COMMAND, AGENT_ARGS, AGENT_USER or AGENT_WORKDIR: no pair of the
enumeration has one of these names, and a lookup of each gives nothing. -/
theorem main_exec_env_stripped (w : World) (path : String) (argv : List String) (envv : Env)
    (h : Event.exec path argv envv ∈ (main w).trace) :
    (∀ kv ∈ Environ envv, kv.1 ∉ ["SESSION_TOKEN", "CONTROL_PLANE_URL", "SESSION_ID",
      "AGENT_COMMAND", "AGENT_ARGS", "AGENT_USER", "AGENT_WORKDIR"]) ∧
    (∀ name ∈ ["SESSION_TOKEN", "CONTROL_PLANE_URL", "SESSION_ID",
      "AGENT_COMMAND", "AGENT_ARGS", "AGENT_USER", "AGENT_WORKDIR"],
      LookupEnv envv name = none ∧ Getenv envv name = "") := by
  obtain ⟨_, _, _, _, henv⟩ := main_exec_inv w path argv envv h
  subst henv
  have hmem : ∀ kv ∈ finalEnv w.env, kv.1 ∉ ["SESSION_TOKEN", "CONTROL_PLANE_URL",
      "SESSION_ID", "AGENT_COMMAND", "AGENT_ARGS", "AGENT_USER", "AGENT_WORKDIR"] :=
    fun kv hkv => (mem_finalEnv w.env kv hkv).2
  refine ⟨hmem, ?_⟩
  intro name hname
  have hnone : LookupEnv (finalEnv w.env) name = none := by
    rw [LookupEnv_eq_none_iff]
    intro v hv
    exact hmem (name, v) hv hname
  exact ⟨hnone, by simp [Getenv, hnone]⟩

/-- C1, on a run that starts with all three control-plane variables and two
of the agent variables set. -/
theorem main_exec_env_stripped_witness :
    Event.exec "/bin/echo" ["/bin/echo", "hello", "world"]
        [("PATH", "/usr/bin:/bin"), ("HOME", "/root")] ∈ (main devWorld).trace ∧
    ((∀ kv ∈ Environ [("PATH", "/usr/bin:/bin"), ("HOME", "/root")],
      kv.1 ∉ ["SESSION_TOKEN", "CONTROL_PLANE_URL", "SESSION_ID",
        "AGENT_COMMAND", "AGENT_ARGS", "AGENT_USER", "AGENT_WORKDIR"]) ∧
    (∀ name ∈ ["SESSION_TOKEN", "CONTROL_PLANE_URL", "SESSION_ID",
      "AGENT_COMMAND", "AGENT_ARGS", "AGENT_USER", "AGENT_WORKDIR"],
      LookupEnv [("PATH", "/usr/bin:/bin"), ("HOME", "/root")] name = none ∧
      Getenv [("PATH", "/usr/bin:/bin"), ("HOME", "/root")] name = "")) :=
  ⟨by decide, main_exec_env_stripped devWorld "/bin/echo" ["/bin/echo", "hello", "world"]
    [("PATH", "/usr/bin:/bin"), ("HOME", "/root")] (by decide)⟩

/-- C2: when the process is superuser and `lookupUser` resolves the username
to `(uid, gid)`, `dropPrivileges` reads the account database, calls
`setgroups([gid])`, then `setgid(gid)`, then `setuid(uid)`, in this order. A
failure of `setgroups` only adds a warning. When `setgid` fails the process
exits with status 1 and `setuid` is not called; when `setuid` fails the process
exits with status 1; when both succeed `dropPrivileges` returns. -/
theorem dropPrivileges_order (w : World) (username : String) (uid gid : Int)
    (hroot : w.getuid = 0) (hlook : lookupUser w.passwd username = (uid, gid, none)) :
    (w.setgidOk gid = false →
      dropPrivileges w username =
        ⟨[.readFile "/etc/passwd", .setgroups [gid]] ++
          (if w.setgroupsOk [gid] then [] else [Event.stderr .warnSetgroups]) ++
          [.setgid gid, .stderr (.fatal (.setgid gid)), .exit 1], .exited 1⟩) ∧
    (w.setgidOk gid = true → w.setuidOk uid = false →
      dropPrivileges w username =
        ⟨[.readFile "/etc/passwd", .setgroups [gid]] ++
          (if w.setgroupsOk [gid] then [] else [Event.stderr .warnSetgroups]) ++
          [.setgid gid, .setuid uid, .stderr (.fatal (.setuid uid)), .exit 1], .exited 1⟩) ∧
    (w.setgidOk gid = true → w.setuidOk uid = true →
      dropPrivileges w username =
        ⟨[.readFile "/etc/passwd", .setgroups [gid]] ++
          (if w.setgroupsOk [gid] then [] else [Event.stderr .warnSetgroups]) ++
          [.setgid gid, .setuid uid, .stderr (.dropped username uid gid)], .returned⟩) ∧
    (dropPrivileges w username).trace.filter isPrivCall =
      if w.setgidOk gid then [.setgroups [gid], .setgid gid, .setuid uid]
      else [.setgroups [gid], .setgid gid] := by
  have hd : dropPrivileges w username =
      if ¬ w.setgidOk gid then
        ⟨[.readFile "/etc/passwd", .setgroups [gid]] ++
          (if w.setgroupsOk [gid] then [] else [Event.stderr .warnSetgroups]) ++
          [.setgid gid] ++ (fatal (.setgid gid)).trace, (fatal (.setgid gid)).status⟩
      else if ¬ w.setuidOk uid then
        ⟨[.readFile "/etc/passwd", .setgroups [gid]] ++
          (if w.setgroupsOk [gid] then [] else [Event.stderr .warnSetgroups]) ++
          [.setgid gid, .setuid uid] ++ (fatal (.setuid uid)).trace,
          (fatal (.setuid uid)).status⟩
      else
        ⟨[.readFile "/etc/passwd", .setgroups [gid]] ++
          (if w.setgroupsOk [gid] then [] else [Event.stderr .warnSetgroups]) ++
          [.setgid gid, .setuid uid, .stderr (.dropped username uid gid)], .returned⟩ := by
    unfold dropPrivileges
    rw [if_neg (not_not.2 hroot), hlook]
  rw [hd]
  refine ⟨?_, ?_, ?_, ?_⟩
  · intro h1
    simp [h1, fatal]
  · intro h1 h2
    simp [h1, h2, fatal]
  · intro h1 h2
    simp [h1, h2]
  · cases h1 : w.setgidOk gid <;> cases h2 : w.setuidOk uid <;>
      cases h3 : w.setgroupsOk [gid] <;> simp [fatal, isPrivCall, List.filter]

/-- C2, for the superuser dropping to "agent" while `setgroups` fails. -/
theorem dropPrivileges_order_witness :
    dropPrivileges rootWorld "agent" =
      ⟨[.readFile "/etc/passwd", .setgroups [1001], .stderr .warnSetgroups, .setgid 1001,
        .setuid 1000, .stderr (.dropped "agent" 1000 1001)], .returned⟩ :=
  (dropPrivileges_order rootWorld "agent" 1000 1001 (by decide) (by decide)).2.2.1
    (by decide) (by decide)

/-- C3: `dropPrivileges` returns without calling `setgroups`, `setgid` or
`setuid` and without exiting when the process is not superuser (the account
database is then not read) and when it is superuser but `lookupUser` fails.
In both cases, once `main` has a command, its run has no call that changes
the identity, goes on to resolve the path of the command, and calls
`syscall.Exec` when the path is found. -/
theorem dropPrivileges_skip (w : World) (username : String) :
    (w.getuid ≠ 0 →
      dropPrivileges w username = ⟨[.stderr (.notRoot w.getuid)], .returned⟩) ∧
    (∀ err, w.getuid = 0 → (lookupUser w.passwd username).2.2 = some err →
      dropPrivileges w username =
        ⟨[.readFile "/etc/passwd", .stderr (.warnLookup username err)], .returned⟩) ∧
    ((w.getuid ≠ 0 ∨
        (lookupUser w.passwd
          (if Getenv w.env "AGENT_USER" = "" then "agent"
            else Getenv w.env "AGENT_USER")).2.2 ≠ none) →
      ¬ (Getenv w.env "AGENT_COMMAND" = "" ∧ w.args.length ≤ 1) →
      (∀ e ∈ (main w).trace, isPrivCall e = false) ∧
      Event.lookPath (if Getenv w.env "AGENT_COMMAND" = "" then w.args.getD 1 ""
        else Getenv w.env "AGENT_COMMAND") ∈ (main w).trace ∧
      (∀ p, LookPath w w.env (if Getenv w.env "AGENT_COMMAND" = "" then w.args.getD 1 ""
          else Getenv w.env "AGENT_COMMAND") = some p →
        ∃ argv envv, Event.exec p argv envv ∈ (main w).trace) ∧
      (LookPath w w.env (if Getenv w.env "AGENT_COMMAND" = "" then w.args.getD 1 ""
          else Getenv w.env "AGENT_COMMAND") = none → (main w).status = .exited 1)) := by
  have hnot : ∀ u, w.getuid ≠ 0 →
      dropPrivileges w u = ⟨[.stderr (.notRoot w.getuid)], .returned⟩ := by
    intro u h
    unfold dropPrivileges
    rw [if_pos h]
  have hfail : ∀ u err, w.getuid = 0 → (lookupUser w.passwd u).2.2 = some err →
      dropPrivileges w u =
        ⟨[.readFile "/etc/passwd", .stderr (.warnLookup u err)], .returned⟩ := by
    intro u err h0 herr
    unfold dropPrivileges
    rw [if_neg (not_not.2 h0)]
    rcases hl : lookupUser w.passwd u with ⟨a, b, _ | e⟩
    · rw [hl] at herr
      cases herr
    · rw [hl] at herr
      cases herr
      rfl
  refine ⟨hnot username, hfail username, ?_⟩
  intro hskip hcmd
  have hdp : (dropPrivileges w (targetUserOf w)).status = .returned ∧
      ∀ e ∈ (dropPrivileges w (targetUserOf w)).trace, isPrivCall e = false := by
    by_cases h0 : w.getuid = 0
    · rcases hskip with h | h
      · exact absurd h0 h
      · rw [← targetUserOf_eq] at h
        rcases herr : (lookupUser w.passwd (targetUserOf w)).2.2 with _ | err
        · exact absurd herr h
        · rw [hfail _ err h0 herr]
          simp [isPrivCall]
    · rw [hnot _ h0]
      simp [isPrivCall]
  have hcmd2 : ¬ (Getenv (readControlPlane w.env).2 envAgentCommand = "" ∧
      ¬ w.args.length > 1) := by
    rw [Getenv_agentCommand]
    intro hc
    exact hcmd ⟨hc.1, by omega⟩
  rw [← agentCmdOf_eq, ← LookPath_finalEnv, main_eq, if_neg hcmd2]
  obtain ⟨hst, hpriv⟩ := hdp
  rw [hst]
  simp only []
  rcases hlp : LookPath w (finalEnv w.env) (agentCmdOf w) with _ | bin
  · simp only []
    refine ⟨?_, by simp, by simp, by simp [fatal]⟩
    intro e he
    simp only [List.mem_append, List.mem_singleton, fatal, List.mem_cons,
      List.not_mem_nil, or_false] at he
    rcases he with ((he | he) | he) | he
    · exact headTrace_no_privCall w e he
    · exact hpriv e he
    · rw [he]; rfl
    · rcases he with he | he <;> rw [he] <;> rfl
  · simp only []
    split_ifs
    · refine ⟨?_, by simp, ?_, by simp⟩
      · intro e he
        simp only [List.mem_append, List.mem_singleton, List.mem_cons,
          List.not_mem_nil, or_false] at he
        rcases he with ((he | he) | he) | he
        · exact headTrace_no_privCall w e he
        · exact hpriv e he
        · rw [he]; rfl
        · rcases he with he | he <;> rw [he] <;> rfl
      · intro p hp
        cases hp
        exact ⟨bin :: agentArgsOf w, Environ (finalEnv w.env), by simp⟩
    · refine ⟨?_, by simp, ?_, by simp⟩
      · intro e he
        simp only [List.mem_append, List.mem_singleton, List.mem_cons, fatal,
          List.not_mem_nil, or_false] at he
        rcases he with (((he | he) | he) | he) | he
        · exact headTrace_no_privCall w e he
        · exact hpriv e he
        · rw [he]; rfl
        · rcases he with he | he <;> rw [he] <;> rfl
        · rcases he with he | he <;> rw [he] <;> rfl
      · intro p hp
        cases hp
        exact ⟨bin :: agentArgsOf w, Environ (finalEnv w.env), by simp⟩

/-- C3, for a process that is not superuser, for the superuser with a
username the account database does not have, and for the run of `main` of
the first. -/
theorem dropPrivileges_skip_witness :
    dropPrivileges devWorld "agent" = ⟨[.stderr (.notRoot 1000)], .returned⟩ ∧
    dropPrivileges rootWorld "ghost" =
      ⟨[.readFile "/etc/passwd", .stderr (.warnLookup "ghost" (.notFound "ghost"))],
        .returned⟩ ∧
    ((∀ e ∈ (main devWorld).trace, isPrivCall e = false) ∧
      Event.lookPath "/bin/echo" ∈ (main devWorld).trace ∧
      (∀ p, LookPath devWorld devWorld.env "/bin/echo" = some p →
        ∃ argv envv, Event.exec p argv envv ∈ (main devWorld).trace) ∧
      (LookPath devWorld devWorld.env "/bin/echo" = none →
        (main devWorld).status = .exited 1)) :=
  ⟨(dropPrivileges_skip devWorld "agent").1 (by decide),
    (dropPrivileges_skip rootWorld "ghost").2.1 (.notFound "ghost") (by decide) (by decide),
    (dropPrivileges_skip devWorld "agent").2.2 (Or.inl (by decide)) (by decide)⟩

/-- C8: the first step of `main` captures, for each of SESSION_TOKEN,
CONTROL_PLANE_URL and SESSION_ID, the value the variable had (`v` when it was
set to `v`, the empty string when it was absent); afterwards a lookup of the
variable finds nothing and `Getenv` gives the empty string; removing a variable
that is absent leaves the environment as it was, and so does the whole step
when all three are absent. -/
theorem readControlPlane_capture (env : Env) (v : String) :
    ((LookupEnv env "SESSION_TOKEN" = some v → (readControlPlane env).1.sessionToken = v) ∧
      (LookupEnv env "SESSION_TOKEN" = none → (readControlPlane env).1.sessionToken = "")) ∧
    ((LookupEnv env "CONTROL_PLANE_URL" = some v →
        (readControlPlane env).1.controlPlaneURL = v) ∧
      (LookupEnv env "CONTROL_PLANE_URL" = none →
        (readControlPlane env).1.controlPlaneURL = "")) ∧
    ((LookupEnv env "SESSION_ID" = some v → (readControlPlane env).1.sessionID = v) ∧
      (LookupEnv env "SESSION_ID" = none → (readControlPlane env).1.sessionID = "")) ∧
    (∀ name ∈ ["SESSION_TOKEN", "CONTROL_PLANE_URL", "SESSION_ID"],
      LookupEnv (readControlPlane env).2 name = none ∧
      Getenv (readControlPlane env).2 name = "" ∧
      (LookupEnv env name = none → Unsetenv env name = env)) ∧
    ((∀ name ∈ ["SESSION_TOKEN", "CONTROL_PLANE_URL", "SESSION_ID"],
        LookupEnv env name = none) → (readControlPlane env).2 = env) := by
  have hget : ∀ name, (LookupEnv env name = some v → Getenv env name = v) ∧
      (LookupEnv env name = none → Getenv env name = "") := by
    intro name
    constructor <;> intro h <;> simp [Getenv, h]
  have hgone : ∀ name ∈ ["SESSION_TOKEN", "CONTROL_PLANE_URL", "SESSION_ID"],
      LookupEnv (readControlPlane env).2 name = none := by
    intro name hname
    simp only [List.mem_cons, List.mem_singleton, List.not_mem_nil, or_false] at hname
    simp only [readControlPlane]
    rcases hname with h | h | h
    · rw [h]
      exact LookupEnv_Unsetenv_absent _ _ _
        (LookupEnv_Unsetenv_absent _ _ _ (LookupEnv_Unsetenv_self env _))
    · rw [h]
      exact LookupEnv_Unsetenv_absent _ _ _ (LookupEnv_Unsetenv_self _ _)
    · rw [h]
      exact LookupEnv_Unsetenv_self _ _
  refine ⟨hget "SESSION_TOKEN", hget "CONTROL_PLANE_URL", hget "SESSION_ID", ?_, ?_⟩
  · intro name hname
    refine ⟨hgone name hname, ?_, Unsetenv_of_absent env name⟩
    simp [Getenv, hgone name hname]
  · intro h
    have h1 := h "SESSION_TOKEN" (by simp)
    have h2 := h "CONTROL_PLANE_URL" (by simp)
    have h3 := h "SESSION_ID" (by simp)
    simp only [readControlPlane]
    rw [Unsetenv_of_absent env envSessionToken h1,
      Unsetenv_of_absent env envControlPlaneURL h2, Unsetenv_of_absent env envSessionID h3]

/-- C8, on the values of the test: the token and the session id are set, the
URL is absent. -/
theorem readControlPlane_capture_witness :
    (readControlPlane [("SESSION_TOKEN", "test-token"), ("HOME", "/root"),
      ("SESSION_ID", "test-token")]).1.sessionToken = "test-token" ∧
    (readControlPlane [("SESSION_TOKEN", "test-token"), ("HOME", "/root"),
      ("SESSION_ID", "test-token")]).1.controlPlaneURL = "" ∧
    (readControlPlane [("SESSION_TOKEN", "test-token"), ("HOME", "/root"),
      ("SESSION_ID", "test-token")]).1.sessionID = "test-token" ∧
    (readControlPlane [("HOME", "/root")]).2 = [("HOME", "/root")] :=
  ⟨(readControlPlane_capture _ "test-token").1.1 (by decide),
    (readControlPlane_capture [("SESSION_TOKEN", "test-token"), ("HOME", "/root"),
      ("SESSION_ID", "test-token")] "test-token").2.1.2 (by decide),
    (readControlPlane_capture _ "test-token").2.2.1.1 (by decide),
    (readControlPlane_capture [("HOME", "/root")] "").2.2.2.2 (by decide)⟩

/-- C9: when AGENT_COMMAND is absent or empty and the argument vector has no
positional argument, `main` writes its first line and a fatal diagnostic, then
exits with status 1; the whole run has no `chdir`, no call that changes the
identity and no `exec`. -/
theorem main_no_command (w : World) (hcmd : Getenv w.env "AGENT_COMMAND" = "")
    (hargs : w.args.length ≤ 1) :
    main w =
      ⟨[.stderr (.banner (Getenv w.env "SESSION_ID") (Getenv w.env "CONTROL_PLANE_URL")
          (decide (Getenv w.env "SESSION_TOKEN" ≠ ""))),
        .stderr (.fatal .noCommand), .exit 1], .exited 1⟩ ∧
    (∀ e ∈ (main w).trace, isPrivCall e = false ∧ (∀ dir, e ≠ .chdir dir) ∧
      (∀ file, e ≠ .lookPath file) ∧ ∀ path argv envv, e ≠ .exec path argv envv) := by
  have hm : main w =
      ⟨[.stderr (.banner (Getenv w.env "SESSION_ID") (Getenv w.env "CONTROL_PLANE_URL")
          (decide (Getenv w.env "SESSION_TOKEN" ≠ ""))),
        .stderr (.fatal .noCommand), .exit 1], .exited 1⟩ := by
    have hc : Getenv (readControlPlane w.env).2 envAgentCommand = "" ∧
        ¬ w.args.length > 1 := by
      rw [Getenv_agentCommand]
      exact ⟨hcmd, by omega⟩
    rw [main_eq, if_pos hc]
    rfl
  refine ⟨hm, ?_⟩
  rw [hm]
  intro e he
  simp only [List.mem_cons, List.mem_singleton, List.not_mem_nil, or_false] at he
  rcases he with he | he | he <;> subst he <;> simp [isPrivCall]

/-- C9, for the superuser started without a command. -/
theorem main_no_command_witness :
    main noCommandWorld =
      ⟨[.stderr (.banner "" "" true), .stderr (.fatal .noCommand), .exit 1], .exited 1⟩ :=
  (main_no_command noCommandWorld (by decide) (by decide)).1

/-- C10: whenever `main` reaches `syscall.Exec`, the argument vector it passes
is the resolved path of the command followed by the target arguments. The
command is AGENT_COMMAND when that is set and not empty, and the first
positional argument otherwise; the target arguments are the fields of
AGENT_ARGS when that is set and not empty, otherwise the positional arguments
after the first, otherwise none. In particular, with AGENT_COMMAND=/bin/echo
and AGENT_ARGS="hello world" the call is of /bin/echo with the arguments
"hello" and "world", and with neither variable set and the one positional
argument /bin/true the call is of /bin/true with no argument. -/
theorem main_exec_argv (w : World) (path : String) (argv : List String) (envv : Env)
    (h : Event.exec path argv envv ∈ (main w).trace) :
    (∃ cmd,
      ((Getenv w.env "AGENT_COMMAND" ≠ "" ∧ cmd = Getenv w.env "AGENT_COMMAND") ∨
        (Getenv w.env "AGENT_COMMAND" = "" ∧ w.args[1]? = some cmd)) ∧
      LookPath w w.env cmd = some path) ∧
    argv = path ::
      (if Getenv w.env "AGENT_ARGS" ≠ "" then Fields (Getenv w.env "AGENT_ARGS")
        else if 2 < w.args.length then w.args.drop 2
        else []) ∧
    (Getenv w.env "AGENT_COMMAND" = "/bin/echo" → Getenv w.env "AGENT_ARGS" = "hello world" →
      path = "/bin/echo" ∧ argv = ["/bin/echo", "hello", "world"]) ∧
    (Getenv w.env "AGENT_COMMAND" = "" → Getenv w.env "AGENT_ARGS" = "" →
      (∃ prog, w.args = [prog, "/bin/true"]) →
      path = "/bin/true" ∧ argv = ["/bin/true"]) := by
  obtain ⟨hcmd, _, hlp, hargv, _⟩ := main_exec_inv w path argv envv h
  rw [Getenv_agentCommand] at hcmd
  rw [LookPath_finalEnv, agentCmdOf_eq] at hlp
  rw [agentArgsOf_eq] at hargv
  have hslash : ∀ file, ('/' ∈ file.data) → LookPath w w.env file = some path →
      path = file := by
    intro file hf hl
    unfold LookPath at hl
    rw [if_pos hf] at hl
    split_ifs at hl
    injection hl with hl
    exact hl.symm
  refine ⟨⟨_, ?_, hlp⟩, hargv, ?_, ?_⟩
  · by_cases hc : Getenv w.env "AGENT_COMMAND" = ""
    · right
      refine ⟨hc, ?_⟩
      rw [if_pos hc]
      have hlen : 1 < w.args.length := by
        by_contra hlen
        exact hcmd ⟨hc, hlen⟩
      rw [List.getD_eq_getElem?_getD, List.getElem?_eq_getElem hlen]
      rfl
    · left
      exact ⟨hc, by rw [if_neg hc]⟩
  · intro hA hB
    rw [hA] at hlp
    rw [hB] at hargv
    have hp : path = "/bin/echo" := hslash "/bin/echo" (by decide) hlp
    refine ⟨hp, ?_⟩
    rw [hargv, hp, if_pos (by decide)]
    decide
  · intro hA hB hargs
    obtain ⟨prog, hprog⟩ := hargs
    rw [hA, hprog] at hlp
    rw [hB, hprog] at hargv
    have hp : path = "/bin/true" := hslash "/bin/true" (by decide) hlp
    refine ⟨hp, ?_⟩
    rw [hargv, hp, if_neg (by decide), if_neg (by simp)]

/-- C10, on the two starts of the claim. -/
theorem main_exec_argv_witness :
    (Event.exec "/bin/echo" ["/bin/echo", "hello", "world"]
        [("PATH", "/usr/bin:/bin"), ("HOME", "/root")] ∈ (main devWorld).trace ∧
      Event.exec "/bin/true" ["/bin/true"] [("PATH", "/usr/bin:/bin")] ∈
        (main positionalWorld).trace) ∧
    ("/bin/echo" = "/bin/echo" ∧
      ["/bin/echo", "hello", "world"] = ["/bin/echo", "hello", "world"]) ∧
    ("/bin/true" = "/bin/true" ∧ ["/bin/true"] = ["/bin/true"]) :=
  ⟨⟨by decide, by decide⟩,
    (main_exec_argv devWorld "/bin/echo" ["/bin/echo", "hello", "world"]
      [("PATH", "/usr/bin:/bin"), ("HOME", "/root")] (by decide)).2.2.1
      (by decide) (by decide),
    (main_exec_argv positionalWorld "/bin/true" ["/bin/true"] [("PATH", "/usr/bin:/bin")]
      (by decide)).2.2.2 (by decide) (by decide) ⟨"entrypoint", by decide⟩⟩

end Entrypoint
